import Mathlib

/-
  Verification development for the spectra-catalog STAC browser.

  Shallow embedding of:
  - src/services/stac.service.js   (geoJsonToGeometry, formatDateRange, searchItems, boundsToBbox)
  - src/redux/slices/stacCatalog.js (the stacCatalog slice reducer and the searchItemsAsync
    parameter pipeline)
  - src/components/Catalog.js      (handleClear, formatXYZUrl, formatQGISArcGISUrl)

  Modelling conventions:
  - JavaScript values that flow through truthiness checks are modelled by the JsVal type
    (numbers as Int; NaN does not arise in the checked positions).
  - GeoJSON objects are modelled by GeoObj; the coordinates field is modelled at the
    Polygon nesting depth (rings of positions, a position being a list of numbers),
    since the Polygon branch is the only code that inspects the structure of
    coordinates; for the other geometry types only presence/absence matters.
  - Dates are modelled as already-parsed calendar/time components, assuming a UTC
    environment (local time = UTC), so JS setHours acts on the displayed fields and
    toISOString prints them directly.
  - URLs are modelled as lists of characters; JS String.prototype.replace with a string
    pattern (first occurrence only) is modelled by replaceFirstSub.
  - Redux semantics: the store applies dispatched actions strictly in arrival order;
    createAsyncThunk dispatches pending at issuance time and fulfilled/rejected at the
    moment the underlying promise settles, so a run of the reducer over an action list
    models one interleaving of issuance and response arrival.
-/

namespace SpectraCatalog

/-- A JavaScript value, as far as the truthiness and shape checks in the source
    distinguish them. -/
inductive JsVal where
  | undef
  | jnull
  | jbool (b : Bool)
  | jnum (n : Int)
  | jstr (s : String)
  | jarr (xs : List JsVal)

/-- JS truthiness: undefined, null, false, 0 and the empty string are falsy;
    every object (hence every array) is truthy. -/
def truthy : JsVal → Bool
  | .undef => false
  | .jnull => false
  | .jbool b => b
  | .jnum n => n != 0
  | .jstr s => s != ""
  | .jarr _ => true

/-- A GeoJSON-shaped object: its type tag, its geometry field (meaningful when the
    type is Feature) and its coordinates field (none models a missing or non-array
    coordinates value). -/
inductive GeoObj where
  | mk (gtype : String) (geometry : Option GeoObj)
       (coordinates : Option (List (List (List Int)))) : GeoObj

def GeoObj.type : GeoObj → String
  | .mk t _ _ => t

def GeoObj.geometry : GeoObj → Option GeoObj
  | .mk _ g _ => g

def GeoObj.coordinates : GeoObj → Option (List (List (List Int)))
  | .mk _ _ c => c

/-- The geometry types accepted by geoJsonToGeometry (stac.service.js line 118). -/
def validGeometryTypes : List String :=
  ["Point", "LineString", "Polygon", "MultiPoint", "MultiLineString", "MultiPolygon"]

/-- The closure test of stac.service.js line 133:
    first[0] !== last[0] || first[1] !== last[1], where indexing past the end of a
    position yields undefined (modelled by Option). -/
def coordNe (a b : List Int) : Bool :=
  (a.get? 0 != b.get? 0) || (a.get? 1 != b.get? 1)

/-- The Polygon-closing step of stac.service.js lines 126-141: it looks only at
    coordinates[0]; if that ring is non-empty and its first and last positions differ
    it appends a copy of the first position. All later rings are left untouched. -/
def closeRings : List (List (List Int)) → List (List (List Int))
  | [] => []
  | ring :: rest =>
    match ring with
    | [] => [] :: rest
    | first :: tl =>
      if coordNe first ((first :: tl).getLastD first)
      then ((first :: tl) ++ [first]) :: rest
      else (first :: tl) :: rest

/-- Observer: a ring is closed when it is empty or its first and last positions agree
    under the coordNe test. -/
def ringClosed : List (List Int) → Bool
  | [] => true
  | first :: tl => !(coordNe first ((first :: tl).getLastD first))

/-- geoJsonToGeometry of stac.service.js lines 107-146. A Feature is unwrapped to its
    geometry field without any further check; a bare geometry must carry a recognized
    type and an array coordinates field; a Polygon additionally gets its first ring
    closed. Anything else yields null. -/
def geoJsonToGeometry : Option GeoObj → Option GeoObj
  | none => none
  | some (.mk t geom coords) =>
    if t = "Feature" then geom
    else if validGeometryTypes.contains t then
      match coords with
      | none => none
      | some rings =>
        if t = "Polygon" ∧ 0 < rings.length then
          some (.mk t geom (some (closeRings rings)))
        else some (.mk t geom (some rings))
    else none

/-- A parsed date-time, components as displayed in a UTC environment. -/
structure DateTime where
  year : Nat
  month : Nat
  day : Nat
  hour : Nat
  minute : Nat
  second : Nat
  ms : Nat
deriving DecidableEq

def pad2 (n : Nat) : String :=
  if n < 10 then "0" ++ toString n else toString n

def pad3 (n : Nat) : String :=
  if n < 10 then "00" ++ toString n
  else if n < 100 then "0" ++ toString n
  else toString n

def pad4 (n : Nat) : String :=
  if n < 10 then "000" ++ toString n
  else if n < 100 then "00" ++ toString n
  else if n < 1000 then "0" ++ toString n
  else toString n

/-- Date.prototype.toISOString in a UTC environment. -/
def toISOString (d : DateTime) : String :=
  pad4 d.year ++ "-" ++ pad2 d.month ++ "-" ++ pad2 d.day ++ "T" ++
  pad2 d.hour ++ ":" ++ pad2 d.minute ++ ":" ++ pad2 d.second ++ "." ++ pad3 d.ms ++ "Z"

/-- setHours(23, 59, 59, 999) in a UTC environment. -/
def setEndOfDay (d : DateTime) : DateTime :=
  { d with hour := 23, minute := 59, second := 59, ms := 999 }

/-- formatDateRange of stac.service.js lines 158-194. Both the Date branch and the
    string branch first convert the input to a parsed date and push the end date to the
    end of its day, so a single DateTime input per endpoint captures both. -/
def formatDateRange (startDate endDate : Option DateTime) : Option String :=
  let start := startDate.map toISOString
  let e := endDate.map (fun d => toISOString (setEndOfDay d))
  match start, e with
  | some s, some t => some (s ++ "/" ++ t)
  | some s, none => some (s ++ "/..")
  | none, some t => some ("../" ++ t)
  | none, none => none

/-- A Leaflet LatLngBounds, reduced to the four numbers boundsToBbox reads. -/
structure LatLngBounds where
  swLng : Int
  swLat : Int
  neLng : Int
  neLat : Int

/-- boundsToBbox of stac.service.js lines 96-100. -/
def boundsToBbox (b : LatLngBounds) : JsVal :=
  .jarr [.jnum b.swLng, .jnum b.swLat, .jnum b.neLng, .jnum b.neLat]

/-- The parameter object handed to searchItems (fields the function reads). -/
structure ServiceParams where
  limit : JsVal
  bbox : JsVal
  intersects : Option GeoObj
  datetime : JsVal
  collections : JsVal
  next : JsVal

/-- The request body built by searchItems; an absent field is none. -/
structure SearchRequest where
  limit : JsVal
  bbox : Option (List JsVal)
  intersects : Option GeoObj
  datetime : Option JsVal
  collections : Option (List JsVal)
  next : Option JsVal

/-- searchItems of stac.service.js lines 47-88: the request starts from the limit
    (100 when the given limit is falsy) and each optional field is added only when its
    guard passes; bbox requires a truthy array of length exactly 4, collections a
    truthy non-empty array, datetime and next a truthy value, intersects a truthy
    (present) object. -/
def searchItems (params : ServiceParams) : SearchRequest :=
  { limit := if truthy params.limit then params.limit else .jnum 100
    bbox :=
      match params.bbox with
      | .jarr xs => if xs.length = 4 then some xs else none
      | _ => none
    intersects := params.intersects
    datetime := if truthy params.datetime then some params.datetime else none
    collections :=
      match params.collections with
      | .jarr xs => if 0 < xs.length then some xs else none
      | _ => none
    next := if truthy params.next then some params.next else none }

/-- The raw parameters given to the searchItemsAsync thunk (fields its body reads or
    forwards; callers of the thunk never pre-populate datetime or intersects, the body
    derives them). -/
structure ThunkParams where
  limit : JsVal
  bbox : JsVal
  bounds : Option LatLngBounds
  geoJson : Option GeoObj
  startDate : Option DateTime
  endDate : Option DateTime
  datetime : JsVal
  collections : JsVal
  next : JsVal

/-- The parameter rewriting performed by searchItemsAsync (stacCatalog.js lines 50-88):
    bounds is converted to bbox, geoJson to intersects when the conversion succeeds,
    and the two dates to a datetime string when at least one is present. -/
def searchItemsAsyncParams (p : ThunkParams) : ServiceParams :=
  let bbox :=
    match p.bounds with
    | some b => boundsToBbox b
    | none => p.bbox
  let intersects :=
    match p.geoJson with
    | some gj => geoJsonToGeometry (some gj)
    | none => none
  let datetime :=
    if p.startDate.isSome || p.endDate.isSome then
      match formatDateRange p.startDate p.endDate with
      | some dt => JsVal.jstr dt
      | none => p.datetime
    else p.datetime
  { limit := p.limit
    bbox := bbox
    intersects := intersects
    datetime := datetime
    collections := p.collections
    next := p.next }

/-- The pagination sub-state of the slice. -/
structure Pagination where
  next : Option String
  hasMore : Bool
deriving DecidableEq

/-- The searchParams sub-state of the slice (initial values at stacCatalog.js
    lines 104-110). -/
structure SearchParamsState where
  collections : List String
  startDate : Option String
  endDate : Option String
  bbox : Option (List Int)
  geometry : Option GeoObj

/-- The stacCatalog slice state (stacCatalog.js lines 97-116). Collection entries and
    result items are opaque JSON values, modelled as strings. -/
structure StacState where
  collections : List String
  selectedCollection : Option String
  items : List String
  features : List String
  loading : Bool
  error : Option String
  searchParams : SearchParamsState
  pagination : Pagination
  drawnGeometry : Option GeoObj

def initialSearchParams : SearchParamsState :=
  { collections := [], startDate := none, endDate := none, bbox := none, geometry := none }

def initialPagination : Pagination :=
  { next := none, hasMore := false }

def initialState : StacState :=
  { collections := []
    selectedCollection := none
    items := []
    features := []
    loading := false
    error := none
    searchParams := initialSearchParams
    pagination := initialPagination
    drawnGeometry := none }

/-- A partial searchParams object, spread over the existing one by setSearchParams. -/
structure ParamsPatch where
  collections : Option (List String)
  startDate : Option (Option String)
  endDate : Option (Option String)
  bbox : Option (Option (List Int))
  geometry : Option (Option GeoObj)

/-- The object spread of setSearchParams: fields present in the patch override. -/
def applyPatch (sp : SearchParamsState) (p : ParamsPatch) : SearchParamsState :=
  { collections := p.collections.getD sp.collections
    startDate := p.startDate.getD sp.startDate
    endDate := p.endDate.getD sp.endDate
    bbox := p.bbox.getD sp.bbox
    geometry := p.geometry.getD sp.geometry }

/-- The payload of a fulfilled searchItemsAsync: the features array may be absent and
    the next token may be absent or empty. -/
structure SearchPayload where
  features : Option (List String)
  next : Option String

/-- The actions the stacCatalog slice reacts to: its own reducers plus the
    pending/fulfilled/rejected actions of its three thunks. -/
inductive Action where
  | setSearchParams (patch : ParamsPatch)
  | setDrawnGeometry (g : Option GeoObj)
  | clearDrawnGeometry
  | setSelectedCollections (cols : List String)
  | setDateRange (s e : Option String)
  | clearSearch
  | clearError
  | fetchCollectionsPending
  | fetchCollectionsFulfilled (cols : List String)
  | fetchCollectionsRejected (msg : String)
  | fetchCollectionPending
  | fetchCollectionFulfilled (c : String)
  | fetchCollectionRejected (msg : String)
  | searchItemsPending
  | searchItemsFulfilled (payload : SearchPayload)
  | searchItemsRejected (msg : String)

/-- action.payload.next || null on an optional token (empty string is falsy). -/
def tokenOrNull (o : Option String) : Option String :=
  match o with
  | some t => if t = "" then none else some t
  | none => none

/-- Double-negation truthiness of the optional token. -/
def tokenTruthy (o : Option String) : Bool :=
  match o with
  | some t => t != ""
  | none => false

/-- The stacCatalog slice reducer (stacCatalog.js lines 118-211), covering the inline
    reducers and every extraReducers case. The reducer is total over Action and is
    applied to dispatched actions strictly in arrival order. -/
def stacCatalogReducer (state : StacState) : Action → StacState
  | .setSearchParams patch =>
      { state with searchParams := applyPatch state.searchParams patch }
  | .setDrawnGeometry g => { state with drawnGeometry := g }
  | .clearDrawnGeometry => { state with drawnGeometry := none }
  | .setSelectedCollections cols =>
      { state with searchParams := { state.searchParams with collections := cols } }
  | .setDateRange s e =>
      { state with
        searchParams := { state.searchParams with startDate := s, endDate := e } }
  | .clearSearch =>
      { state with
        items := []
        features := []
        searchParams := initialSearchParams
        drawnGeometry := none
        pagination := initialPagination }
  | .clearError => { state with error := none }
  | .fetchCollectionsPending => { state with loading := true, error := none }
  | .fetchCollectionsFulfilled cols =>
      { state with loading := false, collections := cols, error := none }
  | .fetchCollectionsRejected msg =>
      { state with loading := false, error := some msg, collections := [] }
  | .fetchCollectionPending => { state with loading := true, error := none }
  | .fetchCollectionFulfilled c =>
      { state with loading := false, selectedCollection := some c, error := none }
  | .fetchCollectionRejected msg =>
      { state with loading := false, error := some msg, selectedCollection := none }
  | .searchItemsPending => { state with loading := true, error := none }
  | .searchItemsFulfilled payload =>
      { state with
        loading := false
        items := payload.features.getD []
        features := payload.features.getD []
        pagination := { next := tokenOrNull payload.next, hasMore := tokenTruthy payload.next }
        error := none }
  | .searchItemsRejected msg =>
      { state with
        loading := false
        error := some msg
        items := []
        features := [] }

/-- The message produced by the searchItemsAsync catch block:
    error.response?.data?.message || a fixed fallback (an absent or empty server
    message falls back). -/
def searchRejectMessage (serverMessage : Option String) : String :=
  match serverMessage with
  | some m => if m = "" then "Failed to search items" else m
  | none => "Failed to search items"

/-- The Catalog component-local state touched by handleClear (Catalog.js
    lines 555-559); the drawn Leaflet layer handle is opaque. -/
structure CatalogLocal where
  selectedCollections : List String
  startDate : String
  endDate : String
  drawnLayer : Option Unit
  selectedItem : Option String

/-- handleClear of Catalog.js lines 667-687: dispatches clearSearch, resets the local
    filter inputs and the selected item, drops the drawn layer handle, and dispatches
    clearDrawnGeometry. -/
def handleClear (rs : StacState) (ls : CatalogLocal) : StacState × CatalogLocal :=
  let rs1 := stacCatalogReducer rs .clearSearch
  let ls1 : CatalogLocal :=
    { ls with
      selectedCollections := []
      startDate := ""
      endDate := ""
      selectedItem := none
      drawnLayer := none }
  let rs2 := stacCatalogReducer rs1 .clearDrawnGeometry
  (rs2, ls1)

/-- Does the first list occur as a leading segment of the second? -/
def leadsWith : List Char → List Char → Bool
  | [], _ => true
  | _ :: _, [] => false
  | p :: ps, c :: cs => p == c && leadsWith ps cs

/-- JS String.prototype.includes: does the pattern occur anywhere? -/
def hasSub (pat : List Char) : List Char → Bool
  | [] => leadsWith pat []
  | c :: cs => leadsWith pat (c :: cs) || hasSub pat cs

/-- JS String.prototype.replace with a non-empty string pattern: rewrite the first
    occurrence only, leave the string unchanged when the pattern does not occur. -/
def replaceFirstSub (pat rep : List Char) : List Char → List Char
  | [] => []
  | c :: cs =>
    if leadsWith pat (c :: cs) then rep ++ (c :: cs).drop pat.length
    else c :: replaceFirstSub pat rep cs

/-- The number of positions at which the pattern occurs. -/
def countSub (pat : List Char) : List Char → Nat
  | [] => 0
  | c :: cs => (if leadsWith pat (c :: cs) then 1 else 0) + countSub pat cs

def zPat : List Char := ['{', 'z', '}']

def yPat : List Char := ['{', 'y', '}']

def tmsYPat : List Char := ['{', '-', 'y', '}']

/-- The http-to-https upgrade both formatters start with (Catalog.js lines 737-739 and
    755-757): applied when the page itself is served over https and the href starts
    with the insecure scheme. -/
def fixScheme (secure : Bool) (u : List Char) : List Char :=
  if secure && leadsWith ("http://".toList) u
  then "https://".toList ++ u.drop 7
  else u

/-- formatXYZUrl of Catalog.js lines 733-748: after the scheme fix, an href without
    the level placeholder gets a trailing slash (unless already present) and the
    viewer placeholder block appended; otherwise it is returned as is. -/
def formatXYZUrl (secure : Bool) (href : List Char) : List Char :=
  let u := fixScheme secure href
  if hasSub zPat u then u
  else (if u.getLast? == some '/' then u else u ++ ['/']) ++ "{z}/{x}/{y}.png".toList

/-- formatQGISArcGISUrl of Catalog.js lines 751-769: same scheme fix; an href without
    the level placeholder gets the TMS placeholder block appended, otherwise the first
    row placeholder is rewritten to its negated form. -/
def formatQGISArcGISUrl (secure : Bool) (href : List Char) : List Char :=
  let u := fixScheme secure href
  if hasSub zPat u then replaceFirstSub yPat tmsYPat u
  else (if u.getLast? == some '/' then u else u ++ ['/']) ++ "{z}/{x}/{-y}.png".toList

/-! Theorems. -/

def staleResponse : SearchPayload := { features := some ["item-from-search-1"], next := some "token-1" }

def freshResponse : SearchPayload := { features := some ["item-from-search-2"], next := none }

/-- A run of the reducer modelling the race of claim C1: search #1 issued, search #2
    issued while #1 is in flight, #2 resolves first, #1 resolves last. -/
def raceFinalState : StacState :=
  List.foldl stacCatalogReducer initialState
    [.searchItemsPending, .searchItemsPending,
     .searchItemsFulfilled freshResponse, .searchItemsFulfilled staleResponse]

/-- C1 counterexample: search #2 is issued while search #1 is in flight, search #2's
    response arrives first and search #1's stale response arrives last; the final
    state holds search #1's items, features and pagination, not search #2's, so a
    stale response does overwrite the newer result. -/
theorem stale_response_overwrites :
    raceFinalState.items = ["item-from-search-1"] ∧
    raceFinalState.features = ["item-from-search-1"] ∧
    raceFinalState.pagination.next = some "token-1" ∧
    raceFinalState.items ≠ ["item-from-search-2"] := by
  refine ⟨rfl, rfl, rfl, ?_⟩
  decide

/-- C1 (amended): the slice carries no request sequence number, so a fulfilled search
    action overwrites items, features and pagination unconditionally, whatever state it
    finds; the authoritative result is therefore the last response to arrive
    (completion order), not the last search issued. -/
theorem fulfilled_overwrites_unconditionally (s : StacState) (p : SearchPayload) :
    (stacCatalogReducer s (.searchItemsFulfilled p)).items = p.features.getD [] ∧
    (stacCatalogReducer s (.searchItemsFulfilled p)).features = p.features.getD [] ∧
    (stacCatalogReducer s (.searchItemsFulfilled p)).pagination.next = tokenOrNull p.next ∧
    (stacCatalogReducer s (.searchItemsFulfilled p)).pagination.hasMore = tokenTruthy p.next :=
  ⟨rfl, rfl, rfl, rfl⟩

/-- A state in which a previous search has failed: a recorded error message and stale
    empty-ish result fields. -/
def failedSearchState : StacState :=
  { initialState with
    error := some "Failed to search items"
    items := ["stale-item"]
    features := ["stale-item"] }

def emptyLocal : CatalogLocal :=
  { selectedCollections := []
    startDate := ""
    endDate := ""
    drawnLayer := none
    selectedItem := none }

/-- C2 counterexample: clearing from a state with a recorded error message leaves the
    error message in place, so the clear operation does not reset the whole search
    result state (status and error message survive). -/
theorem clear_retains_error_message :
    (handleClear failedSearchState emptyLocal).1.error = some "Failed to search items" ∧
    initialState.error = none ∧
    (handleClear failedSearchState emptyLocal).1.error ≠ initialState.error := by
  refine ⟨rfl, rfl, ?_⟩
  decide

/-- C2 (amended): clearing resets the search filter (collections, dates, drawn
    geometry), the items, features and pagination, and the selected-item reference to
    their initial empty values in the same step, but leaves the error message and the
    loading flag unchanged. -/
theorem handleClear_resets_except_error (rs : StacState) (ls : CatalogLocal) :
    (handleClear rs ls).1.items = [] ∧
    (handleClear rs ls).1.features = [] ∧
    (handleClear rs ls).1.searchParams = initialSearchParams ∧
    (handleClear rs ls).1.pagination = initialPagination ∧
    (handleClear rs ls).1.drawnGeometry = none ∧
    (handleClear rs ls).2.selectedItem = none ∧
    (handleClear rs ls).2.selectedCollections = [] ∧
    (handleClear rs ls).2.startDate = "" ∧
    (handleClear rs ls).2.endDate = "" ∧
    (handleClear rs ls).1.error = rs.error ∧
    (handleClear rs ls).1.loading = rs.loading :=
  ⟨rfl, rfl, rfl, rfl, rfl, rfl, rfl, rfl, rfl, rfl, rfl⟩

/-- The state reached by one successful search from the initial state. -/
def afterFirstSearch : StacState :=
  List.foldl stacCatalogReducer initialState
    [.searchItemsPending, .searchItemsFulfilled ⟨some ["found-item"], some "tok"⟩]

def afterCollectionsFailure : StacState :=
  stacCatalogReducer afterFirstSearch (.fetchCollectionsRejected "Failed to fetch collections")

/-- C5 counterexample: after a successful item search (error cleared to none), a
    failure of the independent collection listing overwrites the single shared error
    field, so the search result state's error message does not survive unchanged. -/
theorem collections_failure_clobbers_error :
    afterFirstSearch.items = ["found-item"] ∧
    afterFirstSearch.error = none ∧
    afterCollectionsFailure.error = some "Failed to fetch collections" ∧
    afterCollectionsFailure.error ≠ afterFirstSearch.error := by
  refine ⟨rfl, rfl, rfl, ?_⟩
  decide

/-- C5 (amended): a collection-listing failure leaves the items, features and
    pagination of a previous search untouched, but records its message in the single
    shared error field (and empties the collection list); error reporting is a shared
    field, not per-operation. -/
theorem fetchCollectionsRejected_frame (s : StacState) (msg : String) :
    (stacCatalogReducer s (.fetchCollectionsRejected msg)).items = s.items ∧
    (stacCatalogReducer s (.fetchCollectionsRejected msg)).features = s.features ∧
    (stacCatalogReducer s (.fetchCollectionsRejected msg)).pagination = s.pagination ∧
    (stacCatalogReducer s (.fetchCollectionsRejected msg)).error = some msg ∧
    (stacCatalogReducer s (.fetchCollectionsRejected msg)).collections = [] :=
  ⟨rfl, rfl, rfl, rfl, rfl⟩

/-- C6: a failing item search records the user-facing error message produced by the
    thunk's catch block (never empty), empties the items and features lists, and ends
    the loading phase; under the spec's status mapping (Failed iff an error is
    recorded while not loading) the state is Failed, and no stale items remain. -/
theorem searchRejected_failure_state (s : StacState) (m : Option String) :
    (stacCatalogReducer s (.searchItemsRejected (searchRejectMessage m))).error
        = some (searchRejectMessage m) ∧
    searchRejectMessage m ≠ "" ∧
    (stacCatalogReducer s (.searchItemsRejected (searchRejectMessage m))).items = [] ∧
    (stacCatalogReducer s (.searchItemsRejected (searchRejectMessage m))).features = [] ∧
    (stacCatalogReducer s (.searchItemsRejected (searchRejectMessage m))).loading = false := by
  refine ⟨rfl, ?_, rfl, rfl, rfl⟩
  cases m with
  | none => decide
  | some m =>
    simp only [searchRejectMessage]
    split
    · decide
    · assumption

/-- A value whose type tag is not a recognized geometry type. -/
def invalidGeom : GeoObj := .mk "Garbage" none none

/-- C8: the Feature path of the geometry converter returns the wrapped geometry field
    as-is for every wrapped value, with no type, coordinate or closure processing,
    while the bare-geometry path rejects the same unrecognized value. -/
theorem feature_passthrough :
    (∀ (geom : Option GeoObj) (coords : Option (List (List (List Int)))),
        geoJsonToGeometry (some (.mk "Feature" geom coords)) = geom) ∧
    geoJsonToGeometry (some invalidGeom) = none ∧
    geoJsonToGeometry (some (.mk "Feature" (some invalidGeom) none)) = some invalidGeom := by
  refine ⟨fun geom coords => rfl, rfl, rfl⟩

/-- C9: the built search request carries a bbox exactly when the supplied bbox value
    is an array of exactly 4 elements, in which case that array is forwarded; every
    other value (non-array, wrong length, absent) is silently omitted. -/
theorem searchItems_bbox_exactly_four (p : ServiceParams) :
    ((searchItems p).bbox ≠ none ↔ ∃ xs, p.bbox = JsVal.jarr xs ∧ xs.length = 4) ∧
    (∀ xs, p.bbox = JsVal.jarr xs → xs.length = 4 → (searchItems p).bbox = some xs) := by
  constructor
  · constructor
    · intro h
      cases hb : p.bbox with
      | jarr xs =>
        refine ⟨xs, rfl, ?_⟩
        by_contra hlen
        simp [searchItems, hb, hlen] at h
      | undef => simp [searchItems, hb] at h
      | jnull => simp [searchItems, hb] at h
      | jbool b => simp [searchItems, hb] at h
      | jnum n => simp [searchItems, hb] at h
      | jstr s => simp [searchItems, hb] at h
    · rintro ⟨xs, hb, hlen⟩
      simp [searchItems, hb, hlen]
  · intro xs hb hlen
    simp [searchItems, hb, hlen]

def bboxParams : ServiceParams :=
  { limit := .undef
    bbox := .jarr [.jnum 0, .jnum 0, .jnum 1, .jnum 1]
    intersects := none
    datetime := .undef
    collections := .undef
    next := .undef }

/-- Witness for C9 at a concrete 4-element bbox. -/
theorem searchItems_bbox_witness :
    (searchItems bboxParams).bbox = some [JsVal.jnum 0, JsVal.jnum 0, JsVal.jnum 1, JsVal.jnum 1] :=
  (searchItems_bbox_exactly_four bboxParams).2 _ rfl rfl

def jan1of2020 : DateTime := ⟨2020, 1, 1, 0, 0, 0, 0⟩

def dec31of2020 : DateTime := ⟨2020, 12, 31, 0, 0, 0, 0⟩

/-- C3: for calendar dates 2020-01-01 and 2020-12-31 the formatter produces the
    closed range from the first instant of the start day to the last representable
    instant of the end day; a start alone yields the open-ended-forward form, an end
    alone the open-ended-backward form (end pushed to end of day), and with neither
    date the request carries no datetime field. -/
theorem formatDateRange_spec :
    formatDateRange (some jan1of2020) (some dec31of2020) =
        some "2020-01-01T00:00:00.000Z/2020-12-31T23:59:59.999Z" ∧
    (∀ d : DateTime, formatDateRange (some d) none = some (toISOString d ++ "/..")) ∧
    (∀ d : DateTime, formatDateRange none (some d) = some ("../" ++ toISOString (setEndOfDay d))) ∧
    formatDateRange none none = none ∧
    (∀ p : ThunkParams, p.startDate = none → p.endDate = none → p.datetime = JsVal.undef →
        (searchItems (searchItemsAsyncParams p)).datetime = none) := by
  refine ⟨by rfl, fun d => rfl, fun d => rfl, rfl, ?_⟩
  intro p h1 h2 h3
  simp [searchItems, searchItemsAsyncParams, h1, h2, h3, truthy]

def noDateParams : ThunkParams :=
  { limit := .undef
    bbox := .undef
    bounds := none
    geoJson := none
    startDate := none
    endDate := none
    datetime := .undef
    collections := .undef
    next := .undef }

/-- Witness for C3 at concrete parameters with neither date supplied. -/
theorem formatDateRange_spec_witness :
    (searchItems (searchItemsAsyncParams noDateParams)).datetime = none :=
  formatDateRange_spec.2.2.2.2 noDateParams rfl rfl rfl

/-- The pagination invariant of claim C10: hasMore is asserted exactly when a
    non-empty continuation token is stored. -/
def paginationInv (p : Pagination) : Prop :=
  p.hasMore = true ↔ ∃ t, p.next = some t ∧ t ≠ ""

/-- The actions that write the pagination sub-state. -/
def touchesPagination : Action → Bool
  | .clearSearch => true
  | .searchItemsFulfilled _ => true
  | _ => false

lemma reducer_preserves_paginationInv (s : StacState) (a : Action)
    (h : paginationInv s.pagination) : paginationInv (stacCatalogReducer s a).pagination := by
  cases a <;> try exact h
  case clearSearch => simp [stacCatalogReducer, paginationInv, initialPagination]
  case searchItemsFulfilled p =>
    simp only [stacCatalogReducer, paginationInv]
    cases hn : p.next with
    | none => simp [tokenOrNull, tokenTruthy]
    | some t =>
      by_cases ht : t = "" <;> simp [tokenOrNull, tokenTruthy, ht]

/-- C10: from the initial state, after any sequence of slice actions, hasMore holds
    exactly when the stored continuation token is a non-empty string; moreover a
    successful search and the clear action are the only actions that write the
    pagination sub-state. -/
theorem pagination_invariant_holds (actions : List Action) :
    paginationInv (List.foldl stacCatalogReducer initialState actions).pagination ∧
    (∀ (s : StacState) (a : Action), touchesPagination a = false →
        (stacCatalogReducer s a).pagination = s.pagination) := by
  constructor
  · have h0 : paginationInv initialState.pagination := by
      simp [paginationInv, initialState, initialPagination]
    have main : ∀ (acts : List Action) (s : StacState), paginationInv s.pagination →
        paginationInv (List.foldl stacCatalogReducer s acts).pagination := by
      intro acts
      induction acts with
      | nil => exact fun s hs => hs
      | cons a rest ih => exact fun s hs => ih _ (reducer_preserves_paginationInv s a hs)
    exact main actions initialState h0
  · intro s a ha
    cases a <;> first | rfl | simp [touchesPagination] at ha

/-- Witness for C10: the frame part applied at a concrete pagination-neutral action. -/
theorem pagination_invariant_witness :
    (stacCatalogReducer initialState .clearError).pagination = initialState.pagination :=
  (pagination_invariant_holds []).2 initialState .clearError rfl

lemma coordNe_self (a : List Int) : coordNe a a = false := by
  simp [coordNe]

lemma closeRings_head_closed (rings : List (List (List Int))) :
    ringClosed ((closeRings rings).headD []) = true := by
  match rings with
  | [] => rfl
  | [] :: rest => rfl
  | (first :: tl) :: rest =>
    simp only [closeRings]
    split
    · have h : ((first :: tl) ++ [first]) = first :: (tl ++ [first]) := by simp
      simp only [h, List.headD_cons, ringClosed]
      have h2 : (first :: (tl ++ [first])).getLastD first = first := by
        have h3 : first :: (tl ++ [first]) = (first :: tl) ++ [first] := by simp
        rw [h3, List.getLastD_concat]
      rw [h2, coordNe_self]
      rfl
    · next hne =>
      simp only [List.headD_cons, ringClosed]
      rw [Bool.not_eq_true] at hne
      simp only [hne, Bool.not_false]

lemma closeRings_drop_one (rings : List (List (List Int))) :
    (closeRings rings).drop 1 = rings.drop 1 := by
  match rings with
  | [] => rfl
  | [] :: rest => rfl
  | (first :: tl) :: rest =>
    simp only [closeRings]
    split <;> rfl

lemma closeRings_noop_of_closed (rings : List (List (List Int)))
    (h : ringClosed (rings.headD []) = true) : closeRings rings = rings := by
  match rings with
  | [] => rfl
  | [] :: rest => rfl
  | (first :: tl) :: rest =>
    simp only [List.headD_cons, ringClosed, Bool.not_eq_eq_eq_not, Bool.not_true] at h
    simp only [closeRings, h]
    rfl

lemma closeRings_idem (rings : List (List (List Int))) :
    closeRings (closeRings rings) = closeRings rings :=
  closeRings_noop_of_closed _ (closeRings_head_closed rings)

lemma closeRings_length (rings : List (List (List Int))) :
    (closeRings rings).length = rings.length := by
  match rings with
  | [] => rfl
  | [] :: rest => rfl
  | (first :: tl) :: rest =>
    simp only [closeRings]
    split <;> rfl

/-- C4 (amended): for every bare Polygon accepted by the geometry validator, the
    output keeps the type and wrapped-geometry fields, its coordinates are the input
    rings with only the first ring closed (a copy of the first pair appended when it
    was unclosed), rings after the first pass through unchanged, the repair is a no-op
    when the first ring is already closed, and re-validating the output returns it
    unchanged (idempotence). -/
theorem polygon_first_ring_closed (g out : GeoObj)
    (hacc : geoJsonToGeometry (some g) = some out) (hp : g.type = "Polygon") :
    out.type = "Polygon" ∧
    out.geometry = g.geometry ∧
    (∃ rings, g.coordinates = some rings ∧
        out.coordinates = some (closeRings rings) ∧
        ringClosed ((closeRings rings).headD []) = true ∧
        (closeRings rings).drop 1 = rings.drop 1 ∧
        (ringClosed (rings.headD []) = true → closeRings rings = rings)) ∧
    geoJsonToGeometry (some out) = some out := by
  obtain ⟨t, geom, coords⟩ := g
  simp only [GeoObj.type] at hp
  subst hp
  simp only [geoJsonToGeometry, reduceCtorEq, reduceIte] at hacc
  match coords with
  | none => exact absurd hacc (by simp)
  | some [] =>
    simp only [List.length_nil, lt_irrefl, and_false, if_false] at hacc
    obtain rfl : out = .mk "Polygon" geom (some []) := by
      cases hacc
      rfl
    refine ⟨rfl, rfl, ⟨[], rfl, rfl, rfl, rfl, fun _ => rfl⟩, rfl⟩
  | some (r :: rest) =>
    simp only [List.length_cons, Nat.succ_pos, and_true, if_true] at hacc
    obtain rfl : out = .mk "Polygon" geom (some (closeRings (r :: rest))) := by
      cases hacc
      rfl
    refine ⟨rfl, rfl,
      ⟨r :: rest, rfl, rfl, closeRings_head_closed _, closeRings_drop_one _,
        closeRings_noop_of_closed _⟩, ?_⟩
    have hlen : 0 < (closeRings (r :: rest)).length := by
      rw [closeRings_length]
      simp
    simp only [geoJsonToGeometry, reduceCtorEq, reduceIte]
    simp [validGeometryTypes, hlen, closeRings_idem]

def openPolygon : GeoObj := .mk "Polygon" none (some [[[0, 0], [1, 0], [1, 1]]])

def closedPolygon : GeoObj := .mk "Polygon" none (some [[[0, 0], [1, 0], [1, 1], [0, 0]]])

/-- Witness for C4 at a concrete unclosed triangle. -/
theorem polygon_first_ring_closed_witness :
    closedPolygon.type = "Polygon" ∧
    closedPolygon.geometry = openPolygon.geometry ∧
    (∃ rings, openPolygon.coordinates = some rings ∧
        closedPolygon.coordinates = some (closeRings rings) ∧
        ringClosed ((closeRings rings).headD []) = true ∧
        (closeRings rings).drop 1 = rings.drop 1 ∧
        (ringClosed (rings.headD []) = true → closeRings rings = rings)) ∧
    geoJsonToGeometry (some closedPolygon) = some closedPolygon :=
  polygon_first_ring_closed openPolygon closedPolygon rfl rfl

/-- A polygon whose outer ring is closed but whose hole ring is not. -/
def holePolygon : GeoObj :=
  .mk "Polygon" none (some [[[0, 0], [4, 0], [4, 4], [0, 0]], [[1, 1], [2, 1], [2, 2]]])

/-- C4 counterexample: the validator accepts a polygon whose second (hole) ring is
    unclosed and returns it unchanged, so not every linear ring of the output has
    equal first and last coordinate pairs: the closure repair touches only the first
    ring. -/
theorem hole_ring_left_unclosed :
    geoJsonToGeometry (some holePolygon) = some holePolygon ∧
    (holePolygon.coordinates.getD []).getD 1 [] = [[1, 1], [2, 1], [2, 2]] ∧
    ringClosed [[1, 1], [2, 1], [2, 2]] = false := by
  refine ⟨rfl, rfl, ?_⟩
  decide

lemma leadsWith_eq_append : ∀ {p u : List Char}, leadsWith p u = true → u = p ++ u.drop p.length := by
  intro p
  induction p with
  | nil => intro u _; simp
  | cons a as ih =>
    intro u h
    match u with
    | [] => simp [leadsWith] at h
    | c :: cs =>
      simp only [leadsWith, Bool.and_eq_true, beq_iff_eq] at h
      obtain ⟨rfl, h2⟩ := h
      simpa using ih h2

lemma replaceFirstSub_not_found (pat rep : List Char) :
    ∀ {u : List Char}, hasSub pat u = false → replaceFirstSub pat rep u = u := by
  intro u
  induction u with
  | nil => intro _; rfl
  | cons c cs ih =>
    intro h
    simp only [hasSub, Bool.or_eq_false_iff] at h
    simp only [replaceFirstSub, h.1, Bool.false_eq_true, if_false]
    rw [ih h.2]

lemma replaceFirstSub_decomp (pat rep : List Char) (hp : pat ≠ []) :
    ∀ {u : List Char}, hasSub pat u = true →
      ∃ a b, u = a ++ pat ++ b ∧ replaceFirstSub pat rep u = a ++ rep ++ b := by
  intro u
  induction u with
  | nil =>
    intro h
    match pat, hp with
    | p :: ps, _ => simp [hasSub, leadsWith] at h
  | cons c cs ih =>
    intro h
    simp only [hasSub, Bool.or_eq_true] at h
    by_cases hl : leadsWith pat (c :: cs) = true
    · refine ⟨[], (c :: cs).drop pat.length, ?_, ?_⟩
      · simpa using leadsWith_eq_append hl
      · simp [replaceFirstSub, hl]
    · have h2 : hasSub pat cs = true := by
        rcases h with h | h
        · exact absurd h hl
        · exact h
      obtain ⟨a, b, hu, hr⟩ := ih h2
      refine ⟨c :: a, b, by simp [hu], ?_⟩
      simp only [replaceFirstSub, hl, Bool.false_eq_true, if_false]
      rw [hr]
      simp

lemma hasSub_z_append (a b : List Char) (ha : ∀ c ∈ a, ('{' == c) = false) :
    hasSub zPat (a ++ b) = hasSub zPat b := by
  induction a with
  | nil => rfl
  | cons c a2 ih =>
    have hc : ('{' == c) = false := ha c (by simp)
    have hl : leadsWith zPat (c :: (a2 ++ b)) = false := by
      simp only [zPat, leadsWith, hc, Bool.false_and]
    simp only [hasSub, List.append_eq, List.cons_append, hl, Bool.false_or]
    exact ih (fun x hx => ha x (by simp [hx]))

lemma countSub_z_append (a b : List Char) (ha : ∀ c ∈ a, ('{' == c) = false) :
    countSub zPat (a ++ b) = countSub zPat b := by
  induction a with
  | nil => rfl
  | cons c a2 ih =>
    have hc : ('{' == c) = false := ha c (by simp)
    have hl : leadsWith zPat (c :: (a2 ++ b)) = false := by
      simp only [zPat, leadsWith, hc, Bool.false_and]
    simp only [countSub, List.append_eq, List.cons_append, hl, Bool.false_eq_true, if_false,
      Nat.zero_add]
    exact ih (fun x hx => ha x (by simp [hx]))

lemma hasSub_fixScheme (secure : Bool) (u : List Char) :
    hasSub zPat (fixScheme secure u) = hasSub zPat u := by
  unfold fixScheme
  split
  · next h =>
    have hl : leadsWith ("http://".toList) u = true := (Bool.and_eq_true _ _).mp h |>.2
    have hu : u = "http://".toList ++ u.drop 7 := leadsWith_eq_append hl
    conv_rhs => rw [hu]
    rw [hasSub_z_append _ _ (by decide), hasSub_z_append _ _ (by decide)]
  · rfl

lemma countSub_fixScheme (secure : Bool) (u : List Char) :
    countSub zPat (fixScheme secure u) = countSub zPat u := by
  unfold fixScheme
  split
  · next h =>
    have hl : leadsWith ("http://".toList) u = true := (Bool.and_eq_true _ _).mp h |>.2
    have hu : u = "http://".toList ++ u.drop 7 := leadsWith_eq_append hl
    conv_rhs => rw [hu]
    rw [countSub_z_append _ _ (by decide), countSub_z_append _ _ (by decide)]
  · rfl

/-- C7: for every href and page scheme, the viewer template and the QGIS/ArcGIS
    exchange template derived from the same href either coincide or differ exactly in
    one row placeholder (the viewer form versus the negated TMS form at the same
    position); and resolving an href that already contains the level placeholder
    never appends another placeholder block (the occurrence count of the level
    placeholder is preserved). -/
theorem tile_templates_differ_only_in_row (secure : Bool) (href : List Char) :
    (formatQGISArcGISUrl secure href = formatXYZUrl secure href ∨
      ∃ a b, formatXYZUrl secure href = a ++ yPat ++ b ∧
             formatQGISArcGISUrl secure href = a ++ tmsYPat ++ b) ∧
    (hasSub zPat href = true →
      countSub zPat (formatXYZUrl secure href) = countSub zPat href) := by
  constructor
  · simp only [formatXYZUrl, formatQGISArcGISUrl]
    by_cases hz : hasSub zPat (fixScheme secure href) = true
    · simp only [hz, if_true]
      by_cases hy : hasSub yPat (fixScheme secure href) = true
      · right
        obtain ⟨a, b, hu, hr⟩ := replaceFirstSub_decomp yPat tmsYPat (by decide) hy
        exact ⟨a, b, hu, hr⟩
      · left
        exact replaceFirstSub_not_found yPat tmsYPat (Bool.not_eq_true _ ▸ hy)
    · simp only [hz, Bool.false_eq_true, if_false]
      right
      refine ⟨(if (fixScheme secure href).getLast? == some '/' then fixScheme secure href
          else fixScheme secure href ++ ['/']) ++ "{z}/{x}/".toList, ".png".toList, ?_, ?_⟩
      · have hsplit : "{z}/{x}/{y}.png".toList = "{z}/{x}/".toList ++ yPat ++ ".png".toList := by
          decide
        rw [hsplit]
        simp [List.append_assoc]
      · have hsplit : "{z}/{x}/{-y}.png".toList = "{z}/{x}/".toList ++ tmsYPat ++ ".png".toList := by
          decide
        rw [hsplit]
        simp [List.append_assoc]
  · intro hz
    have hzu : hasSub zPat (fixScheme secure href) = true := by
      rw [hasSub_fixScheme]
      exact hz
    simp only [formatXYZUrl, hzu, if_true]
    exact countSub_fixScheme secure href

def zHref : List Char := "http://tiles.example/{z}/{x}/{y}.png".toList

/-- Witness for C7: the placeholder-count part applied at a concrete href that
    already carries the level placeholder. -/
theorem tile_templates_witness :
    countSub zPat (formatXYZUrl true zHref) = countSub zPat zHref :=
  (tile_templates_differ_only_in_row true zHref).2 (by decide)

end SpectraCatalog
